import Mathlib

/-!
Verification of the spiceai core components: the object-store Listing
Virtual Table (`crates/data_components/src/metadata/object.rs`) and the
`array_distance` scalar function
(`crates/runtime/src/embeddings/array_distance.rs`).

The Rust code is shallowly embedded: streams become lists of items,
Arrow arrays become typed lists with explicit validity, the regex
matcher (an external crate) becomes an abstract boolean predicate on
strings, and IEEE-754 binary32 arithmetic is modelled exactly by a
software float (sign, biased exponent, fraction) with
round-to-nearest-even.
-/

namespace Spice

/-- Model of `datafusion::error::DataFusionError`, restricted to the
variants the analyzed code constructs: `Internal`, `Execution` and
the planning error produced by `plan_err!`. -/
inductive DFError where
  | internal (msg : String)
  | execution (msg : String)
  | plan (msg : String)
deriving DecidableEq, Repr

/-- Model of `arrow::datatypes::DataType`, restricted to the constructors
the analyzed code mentions.  For list types the nested `Field` is inlined
as (element type, element nullability); the field name is irrelevant to
every check the code performs. `int64` stands in for any other type. -/
inductive DataType where
  | utf8
  | timestampMillisecond
  | uint64
  | float32
  | float64
  | int64
  | fixedSizeList (elemType : DataType) (elemNullable : Bool) (size : Int)
  | list (elemType : DataType) (elemNullable : Bool)
deriving DecidableEq, Repr

/-- Model of `arrow::datatypes::Field`: name, data type, nullability. -/
structure Field where
  name : String
  dataType : DataType
  nullable : Bool
deriving DecidableEq, Repr

/-- Model of `object_store::ObjectMeta`.  `last_modified` is already the
`timestamp_millis()` integer (the chrono conversion is a collaborator);
`size` is the `usize` byte count (the `as u64` cast in `to_record_batch`
is lossless). -/
structure ObjectMeta where
  location : String
  last_modified : Int
  size : Nat
  e_tag : Option String
  version : Option String
deriving DecidableEq, Repr

/-- A typed Arrow column as used by the listing table: values with
per-slot validity (`none` = null slot).  `StringArray::from(Vec<String>)`
and `TimestampMillisecondArray::from(Vec<i64>)` produce all-valid
columns, modelled by mapping `some` over the values. -/
inductive Column where
  | stringCol (values : List (Option String))
  | timestampMillisecondCol (values : List (Option Int))
  | uint64Col (values : List (Option Nat))
deriving DecidableEq, Repr

/-- Number of rows in a column. -/
def Column.length : Column → Nat
  | .stringCol vs => vs.length
  | .timestampMillisecondCol vs => vs.length
  | .uint64Col vs => vs.length

/-- Number of null slots in a column (`Array::null_count`). -/
def Column.nullCount : Column → Nat
  | .stringCol vs => (vs.filter Option.isNone).length
  | .timestampMillisecondCol vs => (vs.filter Option.isNone).length
  | .uint64Col vs => (vs.filter Option.isNone).length

/-- Arrow data type of a column. -/
def Column.dataType : Column → DataType
  | .stringCol _ => .utf8
  | .timestampMillisecondCol _ => .timestampMillisecond
  | .uint64Col _ => .uint64

/-- Model of `arrow::array::RecordBatch`: a schema plus columns. -/
structure RecordBatch where
  schema : List Field
  columns : List Column
deriving DecidableEq, Repr

/-- Model of `RecordBatch::try_new`: validates column count against the
schema, equal row counts, column type against field type, and that a
non-nullable field has no null slots.  Errors are `ArrowError` display
strings (wrapped into `DFError.execution` by the scan stream). -/
def RecordBatch.tryNew (schema : List Field) (columns : List Column) :
    Except String RecordBatch :=
  if schema.length ≠ columns.length then
    .error "number of columns must match number of fields in schema"
  else if columns.any (fun c => c.length ≠ (columns.headD (.stringCol [])).length) then
    .error "all columns in a record batch must have the same length"
  else if (schema.zip columns).any (fun fc => fc.2.dataType ≠ fc.1.dataType) then
    .error "column types must match schema types"
  else if (schema.zip columns).any (fun fc => ¬ fc.1.nullable ∧ fc.2.nullCount ≠ 0) then
    .error "column is declared as non-nullable but contains null values"
  else
    .ok ⟨schema, columns⟩

namespace ObjectStoreMetadataTable

/-- Model of `ObjectStoreMetadataTable::table_schema`: the fixed
5-column schema of the listing virtual table. -/
def table_schema : List Field :=
  [ ⟨"location", .utf8, false⟩,
    ⟨"last_modified", .timestampMillisecond, false⟩,
    ⟨"size", .uint64, false⟩,
    ⟨"e_tag", .utf8, true⟩,
    ⟨"version", .utf8, true⟩ ]

/-- Model of `ObjectStoreMetadataTable::to_record_batch`: builds the five
column arrays from the descriptor list and validates them against the
schema via `RecordBatch::try_new`. -/
def to_record_batch (meta_list : List ObjectMeta) : Except String RecordBatch :=
  RecordBatch.tryNew table_schema
    [ .stringCol (meta_list.map (fun m => some m.location)),
      .timestampMillisecondCol (meta_list.map (fun m => some m.last_modified)),
      .uint64Col (meta_list.map (fun m => some m.size)),
      .stringCol (meta_list.map (fun m => m.e_tag)),
      .stringCol (meta_list.map (fun m => m.version)) ]

end ObjectStoreMetadataTable

/-- Model of `datafusion::common::Constraint` (the variants used). -/
inductive Constraint where
  | primaryKey (cols : List Nat)
  | unique (cols : List Nat)
deriving DecidableEq, Repr

/-- Model of the inherent method `ObjectStoreMetadataTable::constraints`
(`Constraints::new_unverified(vec![Constraint::PrimaryKey(vec![0])])`). -/
def ObjectStoreMetadataTable.constraints : List Constraint :=
  [Constraint.primaryKey [0]]

/-- Model of the `TableProvider::constraints` trait implementation for
`ObjectStoreMetadataTable`: the body is `None` (the primary-key version
is present only as commented-out code under a TODO). -/
def ObjectStoreMetadataTable.tableProviderConstraints : Option (List Constraint) :=
  none

/-- Model of `object_store::path::Path::filename`: `None` when the raw
path is empty, otherwise the substring after the last delimiter
(`raw.rsplit(DELIMITER).next()`), computed character by character. -/
def pathFilename (raw : String) : Option String :=
  if raw.isEmpty then none
  else some (String.mk (raw.toList.foldl
    (fun acc c => if c = '/' then [] else acc ++ [c]) []))

/-- Model of `filename_in_scan` (object.rs): with a configured pattern,
keep the descriptor only when the location has a filename and the regex
matches it; with no pattern keep everything.  The compiled `Regex` is
modelled as its matching predicate `String → Bool`. -/
def filename_in_scan (location : String) (filename_regex : Option (String → Bool)) : Bool :=
  match filename_regex with
  | some regex =>
    match pathFilename location with
    | some filename => if ¬ regex filename then false else true
    | none => false
  | none => true

/-- The `if let Some(limit) = limit { if count >= limit { break; } }`
early-exit test at the bottom of the scan loop. -/
def limitReached (limit : Option Nat) (count : Nat) : Bool :=
  match limit with
  | some l => decide (l ≤ count)
  | none => false

/-- Model of the generator body of `to_sendable_stream`.  The backend
listing stream is the list of its items (`Ok` descriptor or listing
error); the result is the list of yielded stream items together with the
number of backend items pulled (`object_stream.next()` calls that
returned an item).  Control flow mirrors the source: an error item is
yielded wrapped as an execution error and the loop continues; a
descriptor failing `filename_in_scan` is skipped via `continue`
(bypassing the limit check); a batch is yielded and the counter
incremented, then the limit check may break out. -/
def scanGo (filename_regex : Option (String → Bool)) (limit : Option Nat) :
    List (Except String ObjectMeta) → Nat → List (Except DFError RecordBatch) × Nat
  | [], _ => ([], 0)
  | item :: rest, count =>
    match item with
    | .error e =>
      if limitReached limit count then ([.error (.execution e)], 1)
      else
        let r := scanGo filename_regex limit rest count
        (.error (.execution e) :: r.1, r.2 + 1)
    | .ok meta =>
      if filename_in_scan meta.location filename_regex then
        match ObjectStoreMetadataTable.to_record_batch [meta] with
        | .ok batch =>
          if limitReached limit (count + 1) then ([.ok batch], 1)
          else
            let r := scanGo filename_regex limit rest (count + 1)
            (.ok batch :: r.1, r.2 + 1)
        | .error e =>
          if limitReached limit count then ([.error (.execution e)], 1)
          else
            let r := scanGo filename_regex limit rest count
            (.error (.execution e) :: r.1, r.2 + 1)
      else
        let r := scanGo filename_regex limit rest count
        (r.1, r.2 + 1)

/-- Model of `to_sendable_stream`: run the scan loop from counter 0 over
the backend listing.  First component: the yielded stream items; second
component: how many backend items were consumed. -/
def to_sendable_stream (limit : Option Nat) (filename_regex : Option (String → Bool))
    (backend : List (Except String ObjectMeta)) :
    List (Except DFError RecordBatch) × Nat :=
  scanGo filename_regex limit backend 0

/-- The single-descriptor record batch the stream yields for a
descriptor: schema plus the five one-row columns. -/
def batchOf (m : ObjectMeta) : RecordBatch :=
  ⟨ObjectStoreMetadataTable.table_schema,
   [ .stringCol [some m.location],
     .timestampMillisecondCol [some m.last_modified],
     .uint64Col [some m.size],
     .stringCol [m.e_tag],
     .stringCol [m.version] ]⟩

/-!
IEEE-754 binary32 model.  A float is NaN, a signed infinity, or a
finite number given by sign, biased exponent `E ≤ 254` and fraction
`frac < 2^23` (`E = 0` meaning zero / subnormal).  All arithmetic is
exact dyadic arithmetic followed by round-to-nearest-even, which is the
semantics of Rust `f32` `+`, `-`, `*`, `sqrt` and of `as f32`
narrowing. -/

/-- A binary32 value. -/
inductive F32 where
  | nan
  | inf (neg : Bool)
  | finite (neg : Bool) (biasedExp : Nat) (frac : Nat)
deriving DecidableEq, Repr

/-- Positive zero, the value of the Rust literal `0.0f32`. -/
def f32zero : F32 := .finite false 0 0

/-- Magnitude significand of a finite float (implicit leading bit for
normal numbers). -/
def sig32 (biasedExp frac : Nat) : Nat :=
  if biasedExp = 0 then frac else 2 ^ 23 + frac

/-- Exponent of the significand: the finite value is
`sig32 E f * 2 ^ expo32 E` in magnitude. -/
def expo32 (biasedExp : Nat) : Int :=
  if biasedExp = 0 then -149 else (biasedExp : Int) - 150

/-- Fuel-driven binary logarithm, the structural-recursion version of
`Nat.log2` (whose well-founded recursion the kernel cannot evaluate).
Exact whenever `n < 2 ^ fuel`; see `log2Fuel_eq`. -/
def log2Fuel : Nat → Nat → Nat
  | 0, _ => 0
  | fuel + 1, n => if n < 2 then 0 else log2Fuel fuel (n / 2) + 1

/-- Binary logarithm with fuel 300: exact on every quantity a binary32
computation can produce (all are far below `2 ^ 300`). -/
def natLog2 (n : Nat) : Nat := log2Fuel 300 n

/-- Fuel-driven integer square root by the digit-by-digit method,
structurally recursive so the kernel can evaluate it.  Exact whenever
`n < 4 ^ fuel`; see `sqrtFuel_bracket`. -/
def sqrtFuel : Nat → Nat → Nat
  | 0, _ => 0
  | fuel + 1, n =>
    if n < 2 then n
    else
      let s := sqrtFuel fuel (n / 4) * 2
      if (s + 1) * (s + 1) ≤ n then s + 1 else s

/-- Integer square root with fuel 300: exact far beyond every quantity a
binary32 square root can meet. -/
def natSqrt (n : Nat) : Nat := sqrtFuel 300 n

/-- Round `a / 2 ^ k` to the nearest integer, ties to even. -/
def rneDiv (a k : Nat) : Nat :=
  if k = 0 then a
  else
    let q := a / 2 ^ k
    let r := a % 2 ^ k
    let half := 2 ^ (k - 1)
    if half < r then q + 1
    else if r < half then q
    else if q % 2 = 0 then q else q + 1

/-- `a * 2 ^ s` for a possibly negative shift `s`, rounding to nearest
even when bits are shifted out. -/
def rneShift (a : Nat) (s : Int) : Nat :=
  if 0 ≤ s then a * 2 ^ s.toNat else rneDiv a (-s).toNat

/-- Round the exact dyadic value `(-1)^neg * a * 2 ^ e` to binary32 with
round-to-nearest-even, overflowing to infinity and underflowing through
the subnormal range.  `a = 0` yields `+0`; callers implement the
IEEE signed-zero rules before calling. -/
def roundDyadic (neg : Bool) (a : Nat) (e : Int) : F32 :=
  if a = 0 then f32zero
  else
    let b : Nat := natLog2 a + 1
    let unbiased : Int := e + b - 1
    if unbiased < -126 then
      let m := rneShift a (e + 149)
      if 2 ^ 23 ≤ m then .finite neg 1 (m - 2 ^ 23)
      else .finite neg 0 m
    else
      let m := rneShift a (24 - b)
      let m2 := if m = 2 ^ 24 then 2 ^ 23 else m
      let u2 := if m = 2 ^ 24 then unbiased + 1 else unbiased
      if 127 < u2 then .inf neg
      else .finite neg (u2 + 127).toNat (m2 - 2 ^ 23)

/-- Negation (sign-bit flip), exact in IEEE-754. -/
def f32neg : F32 → F32
  | .nan => .nan
  | .inf s => .inf (!s)
  | .finite s e f => .finite (!s) e f

/-- IEEE-754 binary32 addition with round-to-nearest-even, the semantics
of Rust `f32 + f32`. -/
def f32add : F32 → F32 → F32
  | .nan, _ => .nan
  | _, .nan => .nan
  | .inf s1, .inf s2 => if s1 = s2 then .inf s1 else .nan
  | .inf s, .finite _ _ _ => .inf s
  | .finite _ _ _, .inf s => .inf s
  | .finite s1 e1 f1, .finite s2 e2 f2 =>
    let x1 : Int := expo32 e1
    let x2 : Int := expo32 e2
    let x := min x1 x2
    let m1 : Int := (cond s1 (-1) 1) * sig32 e1 f1 * 2 ^ (x1 - x).toNat
    let m2 : Int := (cond s2 (-1) 1) * sig32 e2 f2 * 2 ^ (x2 - x).toNat
    let n := m1 + m2
    if n = 0 then .finite (s1 && s2) 0 0
    else roundDyadic (decide (n < 0)) n.natAbs x

/-- Subtraction `x - y`, which IEEE-754 defines as `x + (-y)`. -/
def f32sub (x y : F32) : F32 := f32add x (f32neg y)

/-- IEEE-754 binary32 multiplication with round-to-nearest-even, the
semantics of Rust `f32 * f32`. -/
def f32mul : F32 → F32 → F32
  | .nan, _ => .nan
  | _, .nan => .nan
  | .inf s1, .inf s2 => .inf (s1 != s2)
  | .inf s1, .finite s2 e2 f2 =>
    if sig32 e2 f2 = 0 then .nan else .inf (s1 != s2)
  | .finite s1 e1 f1, .inf s2 =>
    if sig32 e1 f1 = 0 then .nan else .inf (s1 != s2)
  | .finite s1 e1 f1, .finite s2 e2 f2 =>
    let s := s1 != s2
    let m := sig32 e1 f1 * sig32 e2 f2
    if m = 0 then .finite s 0 0
    else roundDyadic s m (expo32 e1 + expo32 e2)

/-- `x.powi(2)` for the exponent-2 case: a single multiplication. -/
def f32sq (x : F32) : F32 := f32mul x x

/-- IEEE-754 binary32 square root (correctly rounded, nearest-even), the
semantics of Rust `f32::sqrt`.  `sqrt` of a negative number or of NaN is
NaN; `sqrt(±0) = ±0`; `sqrt(+inf) = +inf`.  A nonzero finite result is
always normal, and a rounding tie is impossible, so the nearest
representable is `s0` or `s0 + 1` around the integer square root. -/
def f32sqrt : F32 → F32
  | .nan => .nan
  | .inf false => .inf false
  | .inf true => .nan
  | .finite s e f =>
    if sig32 e f = 0 then .finite s 0 0
    else if s then .nan
    else
      let a := sig32 e f
      let x := expo32 e
      let b : Nat := natLog2 a + 1
      let e2 : Int := Int.fdiv (x + b - 1) 2
      let d : Int := x + 46 - 2 * e2
      let V : Nat := a * 2 ^ d.toNat
      let s0 := natSqrt V
      let m := if V ≤ s0 * s0 + s0 then s0 else s0 + 1
      let m2 := if m = 2 ^ 24 then 2 ^ 23 else m
      let e3 := if m = 2 ^ 24 then e2 + 1 else e2
      .finite false (e3 + 127).toNat (m2 - 2 ^ 23)

/-- True exactly on finite (neither NaN nor infinite) values. -/
def F32.isFinite : F32 → Bool
  | .finite _ _ _ => true
  | _ => false

/-- A binary64 value, needed only as the element type of the
variable-length-list (literal array) second argument. -/
inductive F64 where
  | nan
  | inf (neg : Bool)
  | finite (neg : Bool) (biasedExp : Nat) (frac : Nat)
deriving DecidableEq, Repr

/-- Magnitude significand of a finite binary64 value. -/
def sig64 (biasedExp frac : Nat) : Nat :=
  if biasedExp = 0 then frac else 2 ^ 52 + frac

/-- Exponent of the binary64 significand. -/
def expo64 (biasedExp : Nat) : Int :=
  if biasedExp = 0 then -1074 else (biasedExp : Int) - 1075

/-- Rust `as f32` narrowing of an `f64`: round-to-nearest-even, overflow
to the like-signed infinity, NaN to NaN. -/
def f64toF32 : F64 → F32
  | .nan => .nan
  | .inf s => .inf s
  | .finite s e f =>
    if sig64 e f = 0 then .finite s 0 0
    else roundDyadic s (sig64 e f) (expo64 e)

/-- Model of `arrow::array::Float32Array`: a raw values buffer plus an
optional validity bitmap (`some bs`, `bs[i] = false` meaning slot `i` is
null).  `Array::value(i)` reads the raw buffer and ignores validity,
exactly as in arrow-rs. -/
structure Float32ArrayM where
  values : List F32
  validity : Option (List Bool)
deriving DecidableEq, Repr

/-- `Float32Array::len`. -/
def Float32ArrayM.len (a : Float32ArrayM) : Nat := a.values.length

/-- `Float32Array::value(i)`: the raw buffer slot, validity ignored. -/
def Float32ArrayM.value (a : Float32ArrayM) (i : Nat) : F32 :=
  a.values.getD i f32zero

/-- Model of `arrow::array::Float64Array`, same conventions. -/
structure Float64ArrayM where
  values : List F64
  validity : Option (List Bool)
deriving DecidableEq, Repr

/-- A concrete primitive child array behind an `ArrayRef`, the closed
set of runtime representations `array_distance` tries to downcast to. -/
inductive PrimArray where
  | f32 (a : Float32ArrayM)
  | f64 (a : Float64ArrayM)
deriving DecidableEq, Repr

/-- A columnar argument value (`ArrayRef`) handed to `invoke` after
`ColumnarValue::values_to_arrays`.  List-typed arrays are given by their
per-row child slices (`none` = the whole row entry is null), matching
what `FixedSizeListArray::iter` / `ListArray::iter` yield.  `otherArr`
stands for an array of any other data type. -/
inductive ArrayM where
  | fixedSizeListArr (elemType : DataType) (rows : List (Option PrimArray))
  | listArr (elemType : DataType) (rows : List (Option PrimArray))
  | otherArr (dt : DataType)
deriving DecidableEq, Repr

namespace ArrayDistance

/-- Model of `ArrayDistance::convert_f64_to_f32`: maps `as f32` over the
raw values buffer (`array.values()`, validity ignored) and rebuilds a
null-free `Float32Array` (`from_iter_values`). -/
def convert_f64_to_f32 (a : Float64ArrayM) : Float32ArrayM :=
  ⟨a.values.map f64toF32, none⟩

/-- Model of `ArrayDistance::to_float32_array`: downcast the input to a
fixed-size-list array (`as_fixed_size_list_array`, an `Internal` error
on failure), then for each row fail on a null row entry, downcast the
child slice to `Float32Array` (an `Internal` error on failure), and
collect, short-circuiting at the first error. -/
def to_float32_array : ArrayM → Except DFError (List Float32ArrayM)
  | .fixedSizeListArr _ rows =>
    rows.mapM (fun r =>
      match r with
      | none => .error (.internal "no null entries allowed")
      | some (.f32 a) => .ok a
      | some _ => .error (.internal "downcast failed"))
  | _ => .error (.internal "could not cast value to arrow::array::FixedSizeListArray")

/-- The per-row body of the distance fold in `invoke`:
`sum += (a.value(i) - b.value(i)).powi(2)` over `0..a.len()`, starting
from `0.0`, then `sum.sqrt()`. -/
def rowDistance (a b : Float32ArrayM) : F32 :=
  f32sqrt ((List.range a.len).foldl
    (fun sum i => f32add sum (f32sq (f32sub (a.value i) (b.value i)))) f32zero)

/-- The second-argument decoding step of `ArrayDistance::invoke`:
dispatch on the argument's data type — fixed-size list through
`to_float32_array`, variable-length list through the f64 decoder with
`as f32` narrowing per row, anything else an internal error. -/
def decodeSecondArg (arg1 : ArrayM) : Except DFError (List Float32ArrayM) :=
  match arg1 with
  | .fixedSizeListArr _ _ => to_float32_array arg1
  | .listArr _ rows =>
    rows.mapM (fun r =>
      match r with
      | none => Except.error (DFError.internal "no null entries allowed")
      | some (.f64 a) => Except.ok (convert_f64_to_f32 a)
      | some _ => Except.error (DFError.internal "downcast failed"))
  | .otherArr _ =>
    Except.error (DFError.internal "second argument must be of type FixedSizeList or List")

/-- Model of `ArrayDistance::invoke` on two array arguments.  The first
argument always goes through `to_float32_array` (the `?` operator is the
explicit match on the result); the second through `decodeSecondArg`.
The decoded rows are zipped, each pair checked for equal length (an
internal error naming both lengths) and folded into the Euclidean
distance; results collect into a null-free `Float32Array`. -/
def invoke (arg0 arg1 : ArrayM) : Except DFError (List F32) :=
  match to_float32_array arg0 with
  | .error e => .error e
  | .ok v1 =>
    match decodeSecondArg arg1 with
    | .error e => .error e
    | .ok v2 =>
      (v1.zip v2).mapM (fun p =>
        if p.1.len ≠ p.2.len then
          Except.error (DFError.internal
            ("arrays must have the same length " ++ toString p.1.len ++ " != " ++ toString p.2.len))
        else
          Except.ok (rowDistance p.1 p.2))

/-- Model of `ArrayDistance::return_type`: exactly two arguments; two
fixed-size lists must both carry `Float32` elements (first argument
checked first) and equal declared sizes; a fixed-size list against a
variable-length list resolves unconditionally; every other shape is a
planning error. -/
def return_type (args : List DataType) : Except DFError DataType :=
  match args with
  | [a1, a2] =>
    match a1, a2 with
    | .fixedSizeList t1 _ size1, .fixedSizeList t2 _ size2 =>
      if t1 ≠ .float32 then
        .error (.plan "array_distance requires first arguments to be of type FixedSizeList<Float32>")
      else if t2 ≠ .float32 then
        .error (.plan "array_distance requires second arguments to be of type FixedSizeList<Float32>")
      else if size1 ≠ size2 then
        .error (.plan "array_distance requires both arguments to be of the same size")
      else .ok .float32
    | .fixedSizeList _ _ _, .list _ _ => .ok .float32
    | .fixedSizeList _ _ _, _ =>
      .error (.plan "array_distance requires the second argument to be of type FixedSizeList")
    | _, .fixedSizeList _ _ _ =>
      .error (.plan "array_distance requires the first argument to be of type FixedSizeList")
    | _, _ =>
      .error (.plan "array_distance requires the first argument to be of type FixedSizeList")
  | _ => .error (.plan "array_distance takes exactly two arguments")

end ArrayDistance

/-!  Spec-side definitions and concrete inputs used by the claims. -/

/-- Number of descriptors in a listing that pass the filename filter. -/
def countMatches (filename_regex : Option (String → Bool)) (xs : List ObjectMeta) : Nat :=
  (xs.filter fun m => filename_in_scan m.location filename_regex).length

/-- The binary32 value of a natural number (exact for small inputs). -/
def f32OfNat (n : Nat) : F32 := roundDyadic false n 0

/-- A one-row fixed-size-list argument holding the vector `v` with no
nulls anywhere. -/
def f32RowArray (v : List F32) : ArrayM :=
  .fixedSizeListArr .float32 [some (.f32 ⟨v, none⟩)]

/-- A multi-row fixed-size-list argument, one non-null row per vector. -/
def f32RowsArray (rows : List (List F32)) : ArrayM :=
  .fixedSizeListArr .float32 (rows.map fun v => some (.f32 ⟨v, none⟩))

/-- Written from the spec: `sqrt(sum((a[j] - b[j])^2) for j in 0..length)`
computed and accumulated in 32-bit floating point.  Used to state the
refinement conjunct of the distance claims against the implementation. -/
def euclidSpecDistance (a b : List F32) : F32 :=
  f32sqrt ((a.zip b).foldl (fun sum p => f32add sum (f32sq (f32sub p.1 p.2))) f32zero)

/-- Projection of an already-validated row slice to its `Float32Array`,
used to state the decoder lemma. -/
def primToF32Arr : Option PrimArray → Float32ArrayM
  | some (.f32 a) => a
  | _ => ⟨[], none⟩

/-- The concrete descriptor used by the stream counterexamples. -/
def cMeta : ObjectMeta := ⟨"a.txt", 0, 1, none, none⟩

/-- The filename matcher used by the witnesses: the predicate compiled
from the anchored pattern `\.csv$`. -/
def csvRegex : String → Bool := fun s => s.toList.reverse.take 4 == ['v', 's', 'c', '.']

/-- Concrete matching descriptors for the witnesses. -/
def cMetaCsvA : ObjectMeta := ⟨"data/a.csv", 1, 10, some "e1", none⟩

/-- A second matching descriptor. -/
def cMetaCsvC : ObjectMeta := ⟨"data/c.csv", 3, 30, none, some "v3"⟩

/-- A non-matching descriptor. -/
def cMetaTxt : ObjectMeta := ⟨"data/b.txt", 2, 20, none, none⟩

/-- A one-row argument holding the single vector `[+inf]`. -/
def infVecArr : ArrayM := f32RowArray [.inf false]

/-- A one-row argument whose single vector has one element that is null
(validity bit clear) over a zeroed values buffer. -/
def nullElemArr : ArrayM :=
  .fixedSizeListArr .float32 [some (.f32 ⟨[f32zero], some [false]⟩)]

/-!  Helper lemmas. -/

/-- `to_record_batch` on a single descriptor always succeeds and yields
the canonical one-row batch. -/
theorem to_record_batch_singleton (m : ObjectMeta) :
    ObjectStoreMetadataTable.to_record_batch [m] = .ok (batchOf m) := by
  simp [ObjectStoreMetadataTable.to_record_batch, RecordBatch.tryNew,
    ObjectStoreMetadataTable.table_schema, batchOf, Column.length, Column.nullCount,
    Column.dataType]

/-- With no limit and no filename filter, the scan maps every descriptor
to its batch, for any starting counter. -/
theorem scanGo_none_none (metas : List ObjectMeta) :
    ∀ count : Nat, scanGo none none (metas.map Except.ok) count
      = (metas.map fun m => Except.ok (batchOf m), metas.length) := by
  induction metas with
  | nil => intro count; rfl
  | cons m rest ih =>
    intro count
    simp [scanGo, filename_in_scan, to_record_batch_singleton, limitReached, ih (count + 1)]

/-- `mapM` into `Except` succeeds pointwise. -/
theorem mapM_ok_of_forall {α β ε : Type} (f : α → Except ε β) (g : α → β) :
    ∀ l : List α, (∀ x ∈ l, f x = .ok (g x)) → l.mapM f = .ok (l.map g) := by
  intro l
  induction l with
  | nil => intro _; rfl
  | cons x xs ih =>
    intro h
    have hx := h x (by simp)
    have hxs := ih (fun y hy => h y (by simp [hy]))
    rw [List.mapM_cons, hx, hxs]
    rfl

/-- With no limit the scan never reads its counter. -/
theorem scanGo_count_irrel (re : Option (String → Bool))
    (items : List (Except String ObjectMeta)) :
    ∀ c1 c2 : Nat, scanGo re none items c1 = scanGo re none items c2 := by
  induction items with
  | nil => intro c1 c2; rfl
  | cons item rest ih =>
    intro c1 c2
    cases item with
    | error e => simp [scanGo, limitReached, ih c1 c2]
    | ok meta =>
      by_cases hf : filename_in_scan meta.location re
      · cases hb : ObjectStoreMetadataTable.to_record_batch [meta] with
        | ok batch => simp [scanGo, hf, hb, limitReached, ih (c1 + 1) (c2 + 1)]
        | error e => simp [scanGo, hf, hb, limitReached, ih c1 c2]
      · simp [scanGo, hf, ih c1 c2]

/-- With no limit the scan of a concatenated listing is the
concatenation of the scans (and consumption adds up). -/
theorem scanGo_none_append (re : Option (String → Bool))
    (xs ys : List (Except String ObjectMeta)) :
    ∀ c : Nat, scanGo re none (xs ++ ys) c
      = ((scanGo re none xs c).1 ++ (scanGo re none ys c).1,
         (scanGo re none xs c).2 + (scanGo re none ys c).2) := by
  induction xs with
  | nil => intro c; simp [scanGo]
  | cons item rest ih =>
    intro c
    cases item with
    | error e => simp [scanGo, limitReached, ih c]; omega
    | ok meta =>
      by_cases hf : filename_in_scan meta.location re
      · cases hb : ObjectStoreMetadataTable.to_record_batch [meta] with
        | ok batch =>
          simp [scanGo, hf, hb, limitReached, ih (c + 1),
            scanGo_count_irrel re ys (c + 1) c]
          omega
        | error e => simp [scanGo, hf, hb, limitReached, ih c]; omega
      · simp [scanGo, hf, ih c]; omega

/-- Claim C1 (counterexample): with the backend yielding an error and
then a descriptor, the stream emits the wrapped error and then a
further, valid batch — the output stream does not terminate at the
error, refuting that no batches are emitted after it. -/
theorem claimC1_counterexample :
    (to_sendable_stream none none [Except.error "boom", Except.ok cMeta]).1
      = [Except.error (DFError.execution "boom"), Except.ok (batchOf cMeta)] := by
  rfl

/-- Claim C1 (amended): a backend error item is yielded in place,
wrapped as an execution error; all rows emitted before it are preserved
unchanged (not retracted); but the stream continues with the scan of the
remaining backend items instead of terminating. -/
theorem claimC1_error_in_place (re : Option (String → Bool)) (e : String)
    (xs ys : List (Except String ObjectMeta)) :
    (to_sendable_stream none re (xs ++ Except.error e :: ys)).1
      = (to_sendable_stream none re xs).1
        ++ Except.error (DFError.execution e) :: (to_sendable_stream none re ys).1 := by
  have h := scanGo_none_append re xs (Except.error e :: ys) 0
  simp only [to_sendable_stream, h, scanGo, limitReached]
  rfl

/-- Claim C4: with no filename pattern and no limit, the scan of an
error-free listing emits exactly one valid batch per descriptor, in
backend order, consuming the whole listing; every emitted batch carries
exactly the declared 5-column schema with the columns built from the
corresponding descriptor fields. -/
theorem claimC4_rows_and_schema (metas : List ObjectMeta) :
    to_sendable_stream none none (metas.map Except.ok)
        = (metas.map fun m => Except.ok (batchOf m), metas.length)
      ∧ (∀ m : ObjectMeta, (batchOf m).schema = ObjectStoreMetadataTable.table_schema)
      ∧ (∀ m : ObjectMeta, (batchOf m).columns =
          [ .stringCol [some m.location],
            .timestampMillisecondCol [some m.last_modified],
            .uint64Col [some m.size],
            .stringCol [m.e_tag],
            .stringCol [m.version] ]) := by
  exact ⟨scanGo_none_none metas 0, fun _ => rfl, fun _ => rfl⟩

/-- Claim C5: the `TableProvider::constraints` entry point the engine
consults returns `None`, not the declared primary-key candidate; the
primary-key constraint on column 0 exists only in the unused inherent
`ObjectStoreMetadataTable::constraints` helper. -/
theorem claimC5_constraints_divergence :
    ObjectStoreMetadataTable.tableProviderConstraints = none
      ∧ ObjectStoreMetadataTable.constraints = [Constraint.primaryKey [0]] :=
  ⟨rfl, rfl⟩

/-- Core of the limit claim: starting from counter `count` with exactly
`N - count - 1` further matches in `xs` before a matching descriptor
`m`, the scan emits the matching batches of `xs` and then the batch of
`m`, pulls exactly `xs.length + 1` backend items, and stops — whatever
follows (`ys`) is never pulled. -/
theorem scanGo_limit_stops (re : Option (String → Bool)) (N : Nat) (m : ObjectMeta)
    (ys : List (Except String ObjectMeta))
    (hm : filename_in_scan m.location re = true) :
    ∀ (xs : List ObjectMeta) (count : Nat), count + countMatches re xs + 1 = N →
      scanGo re (some N) (xs.map Except.ok ++ Except.ok m :: ys) count
        = ((xs.filter fun x => filename_in_scan x.location re).map
              (fun x => Except.ok (batchOf x)) ++ [Except.ok (batchOf m)],
           xs.length + 1) := by
  intro xs
  induction xs with
  | nil =>
    intro count h
    simp [countMatches] at h
    have hlim : limitReached (some N) (count + 1) = true := by
      simp [limitReached]; omega
    simp [scanGo, hm, to_record_batch_singleton, hlim]
  | cons x xs ih =>
    intro count h
    by_cases hf : filename_in_scan x.location re
    · have hcm : countMatches re (x :: xs) = countMatches re xs + 1 := by
        simp [countMatches, List.filter_cons, hf]
      rw [hcm] at h
      have hlim : limitReached (some N) (count + 1) = false := by
        simp [limitReached]; omega
      have hrec := ih (count + 1) (by omega)
      simp [scanGo, hf, to_record_batch_singleton, hlim, hrec, List.filter_cons]
    · have hcm : countMatches re (x :: xs) = countMatches re xs := by
        simp [countMatches, List.filter_cons, hf]
      rw [hcm] at h
      have hrec := ih count (by omega)
      simp [scanGo, hf, hrec, List.filter_cons]

/-- Claim C2: for a positive limit `N`, with the listing decomposed as
an error-free block `xs` holding `N - 1` matching descriptors, a
matching descriptor `m`, and an arbitrary remainder `ys`: the stream
emits exactly the `N` matching batches (terminating normally, with no
error item), consumes exactly `xs.length + 1` backend items, and never
pulls anything of `ys`. -/
theorem claimC2_limit_early_stop (re : Option (String → Bool)) (N : Nat)
    (xs : List ObjectMeta) (m : ObjectMeta) (ys : List (Except String ObjectMeta))
    (hm : filename_in_scan m.location re = true)
    (hN : countMatches re xs + 1 = N) :
    to_sendable_stream (some N) re (xs.map Except.ok ++ Except.ok m :: ys)
        = ((xs.filter fun x => filename_in_scan x.location re).map
              (fun x => Except.ok (batchOf x)) ++ [Except.ok (batchOf m)],
           xs.length + 1)
      ∧ (to_sendable_stream (some N) re (xs.map Except.ok ++ Except.ok m :: ys)).1.length
          = N := by
  have h := scanGo_limit_stops re N m ys hm xs 0 (by omega)
  refine ⟨h, ?_⟩
  simp [to_sendable_stream, h, countMatches] at hN ⊢
  omega

/-- Claim C2 (witness): limit 2 over a listing whose third matching
descriptor and a trailing backend error are never pulled. -/
theorem claimC2_limit_early_stop_witness :
    filename_in_scan cMetaCsvC.location (some csvRegex) = true
      ∧ countMatches (some csvRegex) [cMetaCsvA, cMetaTxt] + 1 = 2
      ∧ to_sendable_stream (some 2) (some csvRegex)
            ([cMetaCsvA, cMetaTxt].map Except.ok ++ Except.ok cMetaCsvC :: [Except.error "never"])
          = ([Except.ok (batchOf cMetaCsvA), Except.ok (batchOf cMetaCsvC)], 3) := by
  refine ⟨by decide, by decide, ?_⟩
  have h := (claimC2_limit_early_stop (some csvRegex) 2 [cMetaCsvA, cMetaTxt] cMetaCsvC
    [Except.error "never"] (by decide) (by decide)).1
  rw [h]
  rfl

/-- A descriptor failing the filename filter is skipped without any
effect on the emitted items, wherever it sits in the listing and
whatever the limit: the `continue` path neither emits nor counts. -/
theorem scanGo_skip (re : String → Bool) (limit : Option Nat) (m : ObjectMeta)
    (hm : filename_in_scan m.location (some re) = false) :
    ∀ (xs ys : List (Except String ObjectMeta)) (count : Nat),
      (scanGo (some re) limit (xs ++ Except.ok m :: ys) count).1
        = (scanGo (some re) limit (xs ++ ys) count).1 := by
  intro xs
  induction xs with
  | nil => intro ys count; simp [scanGo, hm]
  | cons item rest ih =>
    intro ys count
    cases item with
    | error e =>
      by_cases hl : limitReached limit count
      · simp [scanGo, hl]
      · simp [scanGo, hl, ih ys count]
    | ok meta =>
      by_cases hf : filename_in_scan meta.location (some re)
      · cases hb : ObjectStoreMetadataTable.to_record_batch [meta] with
        | ok batch =>
          by_cases hl : limitReached limit (count + 1)
          · simp [scanGo, hf, hb, hl]
          · simp [scanGo, hf, hb, hl, ih ys (count + 1)]
        | error e =>
          by_cases hl : limitReached limit count
          · simp [scanGo, hf, hb, hl]
          · simp [scanGo, hf, hb, hl, ih ys count]
      · simp [scanGo, hf, ih ys count]

/-- Claim C3: (i) with a configured pattern the filter accepts a
location exactly when it has a final path segment matching the pattern;
(ii) a single-descriptor scan emits its row exactly when the filter
accepts, whatever the limit; (iii) a rejected descriptor anywhere in the
listing changes nothing in the emitted items — in particular it is not
counted toward the limit. -/
theorem claimC3_filename_filter :
    (∀ (re : String → Bool) (loc : String),
        filename_in_scan loc (some re) = true
          ↔ ∃ f, pathFilename loc = some f ∧ re f = true)
      ∧ (∀ (re : String → Bool) (m : ObjectMeta) (limit : Option Nat),
          to_sendable_stream limit (some re) [Except.ok m]
            = (if filename_in_scan m.location (some re) then [Except.ok (batchOf m)] else [], 1))
      ∧ (∀ (re : String → Bool) (limit : Option Nat) (m : ObjectMeta)
          (xs ys : List (Except String ObjectMeta)),
          filename_in_scan m.location (some re) = false →
          (to_sendable_stream limit (some re) (xs ++ Except.ok m :: ys)).1
            = (to_sendable_stream limit (some re) (xs ++ ys)).1) := by
  refine ⟨?_, ?_, ?_⟩
  · intro re loc
    unfold filename_in_scan
    cases h : pathFilename loc with
    | none => simp
    | some f => cases hre : re f <;> simp [hre]
  · intro re m limit
    by_cases hf : filename_in_scan m.location (some re)
    · by_cases hl : limitReached limit 1 <;>
        simp [to_sendable_stream, scanGo, hf, hl, to_record_batch_singleton]
    · simp [to_sendable_stream, scanGo, hf]
  · intro re limit m xs ys hm
    exact scanGo_skip re limit m hm xs ys 0

/-- Claim C3 (witness): a matching, a non-matching, and an
extension-less location behave as claimed, and dropping the rejected
descriptor leaves the emitted rows of a limited scan unchanged. -/
theorem claimC3_filename_filter_witness :
    filename_in_scan "data/a.csv" (some csvRegex) = true
      ∧ filename_in_scan "" (some csvRegex) = false
      ∧ to_sendable_stream (some 1) (some csvRegex) [Except.ok cMetaTxt]
          = ([], 1)
      ∧ filename_in_scan cMetaTxt.location (some csvRegex) = false
      ∧ (to_sendable_stream (some 1) (some csvRegex)
            ([Except.ok cMetaTxt] ++ Except.ok cMetaTxt :: [Except.ok cMetaCsvA])).1
          = (to_sendable_stream (some 1) (some csvRegex)
              ([Except.ok cMetaTxt] ++ [Except.ok cMetaCsvA])).1 := by
  refine ⟨?_, by decide, ?_, by decide, ?_⟩
  · exact (claimC3_filename_filter.1 csvRegex "data/a.csv").mpr ⟨"a.csv", rfl, by decide⟩
  · rw [claimC3_filename_filter.2.1 csvRegex cMetaTxt (some 1)]
    rfl
  · exact claimC3_filename_filter.2.2 csvRegex (some 1) cMetaTxt
      [Except.ok cMetaTxt] [Except.ok cMetaCsvA] (by decide)

/-- Squaring any signed zero yields `+0`. -/
theorem f32sq_zero_any (b : Bool) : f32sq (.finite b 0 0) = f32zero := by
  cases b <;> rfl

/-- For a nonzero magnitude, rounding with the negative sign is the
negation of rounding with the positive sign: the sign bit is only
threaded through to the constructors. -/
theorem roundDyadic_neg (a : Nat) (e : Int) (ha : a ≠ 0) :
    roundDyadic true a e = f32neg (roundDyadic false a e) := by
  unfold roundDyadic
  simp only [ha, if_false]
  split
  · split <;> rfl
  · split <;> split <;> rfl

/-- Squaring is insensitive to the sign of the operand. -/
theorem f32sq_neg (z : F32) : f32sq (f32neg z) = f32sq z := by
  cases z with
  | nan => rfl
  | inf s => simp [f32sq, f32neg, f32mul, bne_self_eq_false]
  | finite s e f => simp [f32sq, f32neg, f32mul, bne_self_eq_false]

/-- Subtracting a finite float from itself gives `+0` (exact
cancellation; round-to-nearest-even maps an exact zero sum of
differently-signed operands to `+0`). -/
theorem f32sub_self_finite (x : F32) (hx : x.isFinite = true) : f32sub x x = f32zero := by
  cases x with
  | nan => simp [F32.isFinite] at hx
  | inf s => simp [F32.isFinite] at hx
  | finite s e f =>
    cases s <;>
      simp [f32sub, f32neg, f32add, f32zero, cond, Bool.and_not_self]

/-- Squaring a rounded dyadic of fixed magnitude is independent of the
sign with which it was rounded. -/
theorem f32sq_roundDyadic_signs (b1 b2 : Bool) (a : Nat) (e : Int) (ha : a ≠ 0) :
    f32sq (roundDyadic b1 a e) = f32sq (roundDyadic b2 a e) := by
  cases b1 <;> cases b2 <;> simp [roundDyadic_neg a e ha, f32sq_neg]

/-- Sign-flip of the `±1` factor used by the addition model. -/
theorem cond_not_mul (s : Bool) (t u : Int) :
    cond (!s) (-1 : Int) 1 * t * u = -(cond s (-1 : Int) 1 * t * u) := by
  cases s <;> simp

/-- The squared difference is symmetric in its operands: the exact
difference only changes sign, rounding commutes with negation, and
squaring erases the sign (the cancellation-to-zero case yields signed
zeros whose squares agree). -/
theorem f32sq_sub_symm (x y : F32) : f32sq (f32sub x y) = f32sq (f32sub y x) := by
  cases x with
  | nan => cases y <;> rfl
  | inf s1 =>
    cases y with
    | nan => rfl
    | inf s2 => cases s1 <;> cases s2 <;> rfl
    | finite s2 E2 f2 => cases s1 <;> cases s2 <;> rfl
  | finite s1 E1 f1 =>
    cases y with
    | nan => rfl
    | inf s2 => cases s1 <;> cases s2 <;> rfl
    | finite s2 E2 f2 =>
      show f32sq (f32add (.finite s1 E1 f1) (.finite (!s2) E2 f2))
          = f32sq (f32add (.finite s2 E2 f2) (.finite (!s1) E1 f1))
      simp only [f32add, cond_not_mul, min_comm (expo32 E2) (expo32 E1)]
      set A := cond s1 (-1 : Int) 1 * sig32 E1 f1
        * 2 ^ (expo32 E1 - min (expo32 E1) (expo32 E2)).toNat with hA
      set B := cond s2 (-1 : Int) 1 * sig32 E2 f2
        * 2 ^ (expo32 E2 - min (expo32 E1) (expo32 E2)).toNat with hB
      by_cases h : A + -B = 0
      · have h2 : B + -A = 0 := by omega
        rw [if_pos h, if_pos h2, f32sq_zero_any, f32sq_zero_any]
      · have h2 : B + -A ≠ 0 := by omega
        rw [if_neg h, if_neg h2]
        have h3 : B + -A = -(A + -B) := by ring
        rw [h3, Int.natAbs_neg]
        exact f32sq_roundDyadic_signs _ _ _ _ (Int.natAbs_ne_zero.mpr h)

/-- Decoding an all-valid fixed-size-list of f32 rows succeeds and
returns the per-row arrays. -/
theorem to_float32_array_mk (t : DataType) (rows : List (List F32)) :
    ArrayDistance.to_float32_array
        (.fixedSizeListArr t (rows.map fun v => some (.f32 ⟨v, none⟩)))
      = .ok (rows.map fun v => (⟨v, none⟩ : Float32ArrayM)) := by
  have h := mapM_ok_of_forall
    (fun r : Option PrimArray =>
      match r with
      | none => (Except.error (DFError.internal "no null entries allowed") :
          Except DFError Float32ArrayM)
      | some (.f32 a) => Except.ok a
      | some _ => Except.error (DFError.internal "downcast failed"))
    primToF32Arr
    (rows.map fun v => some (PrimArray.f32 ⟨v, none⟩))
    (by intro x hx
        simp only [List.mem_map] at hx
        obtain ⟨v, _, rfl⟩ := hx
        rfl)
  show (rows.map fun v => some (PrimArray.f32 ⟨v, none⟩)).mapM _ = _
  rw [h, List.map_map]
  rfl

/-- On two all-valid fixed-size-list arguments whose paired rows have
equal lengths, `invoke` succeeds and returns one distance per zipped
row pair. -/
theorem invoke_f32Rows (rows1 rows2 : List (List F32))
    (h : ∀ p ∈ rows1.zip rows2, p.1.length = p.2.length) :
    ArrayDistance.invoke (f32RowsArray rows1) (f32RowsArray rows2)
      = .ok ((rows1.zip rows2).map fun p =>
          ArrayDistance.rowDistance ⟨p.1, none⟩ ⟨p.2, none⟩) := by
  have h1 := to_float32_array_mk DataType.float32 rows1
  have h2 := to_float32_array_mk DataType.float32 rows2
  have hsec : ArrayDistance.decodeSecondArg (f32RowsArray rows2)
      = .ok (rows2.map fun v => (⟨v, none⟩ : Float32ArrayM)) := h2
  unfold ArrayDistance.invoke
  rw [f32RowsArray] at hsec
  unfold f32RowsArray
  rw [h1, hsec]
  show ((rows1.map fun v => (⟨v, none⟩ : Float32ArrayM)).zip
      (rows2.map fun v => (⟨v, none⟩ : Float32ArrayM))).mapM _ = _
  rw [List.zip_map]
  have hmain := mapM_ok_of_forall
    (fun p : Float32ArrayM × Float32ArrayM =>
      if p.1.len ≠ p.2.len then
        Except.error (DFError.internal
          ("arrays must have the same length " ++ toString p.1.len ++ " != " ++ toString p.2.len))
      else Except.ok (ArrayDistance.rowDistance p.1 p.2))
    (fun p => ArrayDistance.rowDistance p.1 p.2)
    ((rows1.zip rows2).map (Prod.map (fun v => (⟨v, none⟩ : Float32ArrayM)) (fun v => ⟨v, none⟩)))
    (by intro x hx
        simp only [List.mem_map] at hx
        obtain ⟨p, hp, rfl⟩ := hx
        have hl := h p hp
        simp [Float32ArrayM.len, Prod.map, hl])
  rw [hmain, List.map_map]
  rfl

/-- The index-based distance fold of the implementation equals the
zip-based fold over the two vectors when their lengths agree. -/
theorem foldl_range_getD (a : List F32) : ∀ (b : List F32) (init : F32),
    a.length = b.length →
    (List.range a.length).foldl
      (fun sum i => f32add sum (f32sq (f32sub (a.getD i f32zero) (b.getD i f32zero)))) init
    = (a.zip b).foldl (fun sum p => f32add sum (f32sq (f32sub p.1 p.2))) init := by
  induction a with
  | nil => intro b init h; simp
  | cons x xs ih =>
    intro b init h
    cases b with
    | nil => simp at h
    | cons y ys =>
      simp only [List.length_cons, List.range_succ_eq_map, List.foldl_cons, List.foldl_map,
        List.getD_cons_zero, List.getD_cons_succ, List.zip_cons_cons]
      exact ih ys _ (by simpa using h)

/-- The per-row distance computed by the implementation equals the
formula written from the spec. -/
theorem rowDistance_spec (v1 v2 : List F32) (h : v1.length = v2.length) :
    ArrayDistance.rowDistance ⟨v1, none⟩ ⟨v2, none⟩ = euclidSpecDistance v1 v2 := by
  unfold ArrayDistance.rowDistance euclidSpecDistance
  simp only [Float32ArrayM.value, Float32ArrayM.len]
  rw [foldl_range_getD v1 v2 f32zero h]

/-- Adding `+0` to `+0` yields `+0`. -/
theorem f32add_zero_zero : f32add f32zero f32zero = f32zero := by decide

/-- Squaring `+0` yields `+0`. -/
theorem f32sq_f32zero : f32sq f32zero = f32zero := by decide

/-- The square root of `+0` is `+0`. -/
theorem f32sqrt_f32zero : f32sqrt f32zero = f32zero := by decide

/-- A sum fold starting at `+0` whose every term is `+0` stays `+0`. -/
theorem foldl_add_zero_terms (term : Nat → F32) : ∀ (l : List Nat),
    (∀ i ∈ l, term i = f32zero) →
    l.foldl (fun s i => f32add s (term i)) f32zero = f32zero := by
  intro l
  induction l with
  | nil => intro _; rfl
  | cons i l ih =>
    intro h
    have hi : f32add f32zero (term i) = f32zero := by
      rw [h i (by simp)]; exact f32add_zero_zero
    simp only [List.foldl_cons, hi]
    exact ih (fun j hj => h j (by simp [hj]))

/-- The distance of a finite-valued vector to itself is exactly `+0`. -/
theorem rowDistance_self_zero (v : List F32) (hfin : ∀ x ∈ v, x.isFinite = true) :
    ArrayDistance.rowDistance ⟨v, none⟩ ⟨v, none⟩ = f32zero := by
  unfold ArrayDistance.rowDistance
  have hterm : ∀ i ∈ List.range (Float32ArrayM.mk v none).len,
      f32sq (f32sub ((Float32ArrayM.mk v none).value i) ((Float32ArrayM.mk v none).value i))
        = f32zero := by
    intro i hi
    have hlt : i < v.length := by simpa [Float32ArrayM.len] using List.mem_range.mp hi
    have hv : (Float32ArrayM.mk v none).value i = v[i] := by
      simp [Float32ArrayM.value, List.getD_eq_getElem?_getD, List.getElem?_eq_getElem hlt]
    rw [hv, f32sub_self_finite _ (hfin _ (v.getElem_mem hlt)), f32sq_f32zero]
  rw [foldl_add_zero_terms _ _ hterm, f32sqrt_f32zero]

/-- `log2Fuel` computes `Nat.log2` whenever the fuel bounds the input. -/
theorem log2Fuel_eq : ∀ (f n : Nat), n < 2 ^ f → log2Fuel f n = Nat.log2 n := by
  intro f
  induction f with
  | zero =>
    intro n h
    interval_cases n
    simp [log2Fuel, Nat.log2]
  | succ f ih =>
    intro n h
    by_cases h2 : n < 2
    · interval_cases n <;> simp [log2Fuel, Nat.log2]
    · rw [log2Fuel, if_neg h2, Nat.log2, if_pos (by omega)]
      congr 1
      refine ih (n / 2) ?_
      have hp : 2 ^ (f + 1) = 2 ^ f * 2 := by rw [pow_succ]
      omega

/-- `sqrtFuel` brackets its input between consecutive squares whenever
the fuel bounds the input: it is the integer square root there. -/
theorem sqrtFuel_bracket : ∀ (f n : Nat), n < 4 ^ f →
    sqrtFuel f n * sqrtFuel f n ≤ n ∧ n < (sqrtFuel f n + 1) * (sqrtFuel f n + 1) := by
  intro f
  induction f with
  | zero =>
    intro n h
    interval_cases n
    simp [sqrtFuel]
  | succ f ih =>
    intro n h
    by_cases h2 : n < 2
    · interval_cases n <;> simp [sqrtFuel]
    · have hdiv : n / 4 < 4 ^ f := by
        have hp : 4 ^ (f + 1) = 4 ^ f * 4 := by rw [pow_succ]
        omega
      obtain ⟨hlo, hhi⟩ := ih (n / 4) hdiv
      have hmod := Nat.div_add_mod n 4
      have hm4 : n % 4 < 4 := Nat.mod_lt n (by omega)
      rw [sqrtFuel, if_neg h2]
      set s0 := sqrtFuel f (n / 4) with hs0
      simp only []
      have hq1 : 4 * (s0 * s0) ≤ 4 * (n / 4) := Nat.mul_le_mul_left 4 hlo
      have hq2 : 4 * (n / 4 + 1) ≤ 4 * ((s0 + 1) * (s0 + 1)) := Nat.mul_le_mul_left 4 hhi
      by_cases hc : (s0 * 2 + 1) * (s0 * 2 + 1) ≤ n
      · rw [if_pos hc]
        refine ⟨hc, ?_⟩
        have he : (s0 * 2 + 1 + 1) * (s0 * 2 + 1 + 1) = 4 * ((s0 + 1) * (s0 + 1)) := by ring
        rw [he]
        exact lt_of_lt_of_le (by omega) hq2
      · rw [if_neg hc]
        constructor
        · have he : s0 * 2 * (s0 * 2) = 4 * (s0 * s0) := by ring
          rw [he]
          exact le_trans hq1 (by omega)
        · exact Nat.gt_of_not_le hc

/-- A one-row call on two equal-length vectors produces the single
per-row distance. -/
theorem invoke_singleton (v1 v2 : List F32) (hlen : v1.length = v2.length) :
    ArrayDistance.invoke (f32RowArray v1) (f32RowArray v2)
      = .ok [ArrayDistance.rowDistance ⟨v1, none⟩ ⟨v2, none⟩] := by
  have h := invoke_f32Rows [v1] [v2] (by intro p hp; simp at hp; simp [hp, hlen])
  simpa using h

/-- The per-row distance is symmetric in the two vectors. -/
theorem rowDistance_symm (v1 v2 : List F32) (hlen : v1.length = v2.length) :
    ArrayDistance.rowDistance ⟨v1, none⟩ ⟨v2, none⟩
      = ArrayDistance.rowDistance ⟨v2, none⟩ ⟨v1, none⟩ := by
  unfold ArrayDistance.rowDistance
  simp only [Float32ArrayM.len, Float32ArrayM.value]
  rw [hlen]
  congr 1
  exact List.foldl_ext _ _ f32zero (fun s i _ => by rw [f32sq_sub_symm])

/-- Claim C6: return-type resolution accepts two fixed-size lists of
`Float32` with equal declared sizes (yielding `Float32`); rejects a
non-`Float32` element type on either side with a message naming the
offending argument (first argument checked first); rejects unequal
declared sizes; accepts a fixed-size list against any variable-length
list unconditionally; rejects any argument count other than two; and
rejects every other shape — a success requires a fixed-size-list first
argument and a fixed-size- or variable-length-list second argument. -/
theorem claimC6_return_type :
    (∀ (n1 n2 : Bool) (sz : Int),
        ArrayDistance.return_type
            [.fixedSizeList .float32 n1 sz, .fixedSizeList .float32 n2 sz] = .ok .float32)
      ∧ (∀ (t1 : DataType) (n1 : Bool) (s1 : Int) (t2 : DataType) (n2 : Bool) (s2 : Int),
          t1 ≠ .float32 →
          ArrayDistance.return_type [.fixedSizeList t1 n1 s1, .fixedSizeList t2 n2 s2]
            = .error (.plan "array_distance requires first arguments to be of type FixedSizeList<Float32>"))
      ∧ (∀ (n1 : Bool) (s1 : Int) (t2 : DataType) (n2 : Bool) (s2 : Int),
          t2 ≠ .float32 →
          ArrayDistance.return_type [.fixedSizeList .float32 n1 s1, .fixedSizeList t2 n2 s2]
            = .error (.plan "array_distance requires second arguments to be of type FixedSizeList<Float32>"))
      ∧ (∀ (n1 : Bool) (s1 : Int) (n2 : Bool) (s2 : Int),
          s1 ≠ s2 →
          ArrayDistance.return_type [.fixedSizeList .float32 n1 s1, .fixedSizeList .float32 n2 s2]
            = .error (.plan "array_distance requires both arguments to be of the same size"))
      ∧ (∀ (t1 : DataType) (n1 : Bool) (s1 : Int) (t2 : DataType) (n2 : Bool),
          ArrayDistance.return_type [.fixedSizeList t1 n1 s1, .list t2 n2] = .ok .float32)
      ∧ (∀ (args : List DataType), args.length ≠ 2 →
          ArrayDistance.return_type args
            = .error (.plan "array_distance takes exactly two arguments"))
      ∧ (∀ (d1 d2 r : DataType),
          ArrayDistance.return_type [d1, d2] = .ok r →
          (∃ t1 n1 s1, d1 = .fixedSizeList t1 n1 s1)
            ∧ ((∃ t2 n2 s2, d2 = .fixedSizeList t2 n2 s2) ∨ (∃ t2 n2, d2 = .list t2 n2))) := by
  refine ⟨?_, ?_, ?_, ?_, ?_, ?_, ?_⟩
  · intro n1 n2 sz; simp [ArrayDistance.return_type]
  · intro t1 n1 s1 t2 n2 s2 h; simp [ArrayDistance.return_type, h]
  · intro n1 s1 t2 n2 s2 h; simp [ArrayDistance.return_type, h]
  · intro n1 s1 n2 s2 h; simp [ArrayDistance.return_type, h]
  · intro t1 n1 s1 t2 n2; simp [ArrayDistance.return_type]
  · intro args h
    match args with
    | [] => rfl
    | [a] => rfl
    | [a, b] => simp at h
    | a :: b :: c :: rest => rfl
  · intro d1 d2 r h
    cases d1 <;> cases d2 <;> simp only [ArrayDistance.return_type] at h
    all_goals try (exact Except.noConfusion h)
    · split_ifs at h <;> try (exact Except.noConfusion h)
      exact ⟨⟨_, _, _, rfl⟩, Or.inl ⟨_, _, _, rfl⟩⟩
    · exact ⟨⟨_, _, _, rfl⟩, Or.inr ⟨_, _, rfl⟩⟩

/-- Claim C6 (witness): each rejection conjunct applied at a concrete
type pair, and the catch-all applied to a successful resolution. -/
theorem claimC6_return_type_witness :
    ArrayDistance.return_type
        [.fixedSizeList .float64 false 3, .fixedSizeList .float32 false 3]
      = .error (.plan "array_distance requires first arguments to be of type FixedSizeList<Float32>")
      ∧ ArrayDistance.return_type
          [.fixedSizeList .float32 false 3, .fixedSizeList .int64 false 3]
        = .error (.plan "array_distance requires second arguments to be of type FixedSizeList<Float32>")
      ∧ ArrayDistance.return_type
          [.fixedSizeList .float32 false 3, .fixedSizeList .float32 false 4]
        = .error (.plan "array_distance requires both arguments to be of the same size")
      ∧ ArrayDistance.return_type [.utf8]
        = .error (.plan "array_distance takes exactly two arguments")
      ∧ ((∃ t1 n1 s1, (DataType.fixedSizeList .float32 false 3) = .fixedSizeList t1 n1 s1)
          ∧ ((∃ t2 n2 s2, (DataType.list .float64 true) = .fixedSizeList t2 n2 s2)
              ∨ (∃ t2 n2, (DataType.list .float64 true) = .list t2 n2))) := by
  refine ⟨claimC6_return_type.2.1 _ _ _ _ _ _ (by decide),
    claimC6_return_type.2.2.1 _ _ _ _ _ (by decide),
    claimC6_return_type.2.2.2.1 _ _ _ _ (by decide),
    claimC6_return_type.2.2.2.2.2.1 _ (by decide),
    claimC6_return_type.2.2.2.2.2.2 _ _ .float32 ?_⟩
  exact claimC6_return_type.2.2.2.2.1 .float32 false 3 .float64 true

/-- Claim C7 (counterexample): on the vector `[+inf]` the self-distance
is NaN, not zero — `inf - inf` is NaN and NaN propagates through
square, sum and square root — refuting the claim that `distance(v, v)`
is `0` for every float32 vector `v`. -/
theorem claimC7_counterexample :
    ArrayDistance.invoke infVecArr infVecArr = .ok [F32.nan] ∧ F32.nan ≠ f32zero :=
  ⟨rfl, by decide⟩

set_option maxRecDepth 100000 in
/-- Claim C7 (amended): on every row pair of decoded equal-length
vectors the result is `sqrt(sum((a[j]-b[j])^2))` computed and
accumulated in 32-bit floating point; `distance(v, v) = +0` for every
vector of finite floats (not for every vector: an infinity or NaN gives
NaN); and on `[0,1,2]` against `[3,4,5]` the result is the binary32
square root of 27, the value `1.29903805…×2^2`. -/
theorem claimC7_distance_formula (v1 v2 : List F32) (hlen : v1.length = v2.length)
    (v : List F32) (hfin : ∀ x ∈ v, x.isFinite = true) :
    ArrayDistance.invoke (f32RowArray v1) (f32RowArray v2)
        = .ok [euclidSpecDistance v1 v2]
      ∧ ArrayDistance.invoke (f32RowArray v) (f32RowArray v) = .ok [f32zero]
      ∧ ArrayDistance.invoke (f32RowArray [f32OfNat 0, f32OfNat 1, f32OfNat 2])
          (f32RowArray [f32OfNat 3, f32OfNat 4, f32OfNat 5])
          = .ok [f32sqrt (f32OfNat 27)]
      ∧ f32sqrt (f32OfNat 27) = .finite false 129 2508513 := by
  refine ⟨?_, ?_, by rfl, by decide⟩
  · rw [invoke_singleton v1 v2 hlen, rowDistance_spec v1 v2 hlen]
  · rw [invoke_singleton v v rfl, rowDistance_self_zero v hfin]

set_option maxRecDepth 100000 in
/-- Claim C7 (witness): the formula and zero-self-distance conjuncts at
the concrete vectors `[1]`, `[2]` and `[5]`. -/
theorem claimC7_distance_formula_witness :
    ([f32OfNat 1] : List F32).length = [f32OfNat 2].length
      ∧ (∀ x ∈ [f32OfNat 5], F32.isFinite x = true)
      ∧ ArrayDistance.invoke (f32RowArray [f32OfNat 1]) (f32RowArray [f32OfNat 2])
          = .ok [euclidSpecDistance [f32OfNat 1] [f32OfNat 2]]
      ∧ ArrayDistance.invoke (f32RowArray [f32OfNat 5]) (f32RowArray [f32OfNat 5])
          = .ok [f32zero] := by
  have h := claimC7_distance_formula [f32OfNat 1] [f32OfNat 2] rfl [f32OfNat 5] (by decide)
  exact ⟨rfl, by decide, h.1, h.2.1⟩

/-- Claim C8: the distance evaluation is symmetric — on any two
equal-length vectors, swapping the two arguments produces the identical
result (including the NaN cases, which propagate identically). -/
theorem claimC8_symmetric (v1 v2 : List F32) (hlen : v1.length = v2.length) :
    ArrayDistance.invoke (f32RowArray v1) (f32RowArray v2)
      = ArrayDistance.invoke (f32RowArray v2) (f32RowArray v1) := by
  rw [invoke_singleton v1 v2 hlen, invoke_singleton v2 v1 hlen.symm,
    rowDistance_symm v1 v2 hlen]

set_option maxRecDepth 100000 in
/-- Claim C8 (witness): symmetry at the concrete pair `[1,2]`, `[3,5]`. -/
theorem claimC8_symmetric_witness :
    ([f32OfNat 1, f32OfNat 2] : List F32).length = [f32OfNat 3, f32OfNat 5].length
      ∧ ArrayDistance.invoke (f32RowArray [f32OfNat 1, f32OfNat 2])
          (f32RowArray [f32OfNat 3, f32OfNat 5])
        = ArrayDistance.invoke (f32RowArray [f32OfNat 3, f32OfNat 5])
            (f32RowArray [f32OfNat 1, f32OfNat 2]) :=
  ⟨rfl, claimC8_symmetric _ _ rfl⟩

/-- Claim C9 (counterexample): a vector whose single element is null
(validity bit clear, zeroed values buffer) evaluates successfully — the
element-null check the claim describes does not exist; `value(i)` reads
the raw buffer and ignores validity. -/
theorem claimC9_counterexample :
    ArrayDistance.invoke nullElemArr nullElemArr = .ok [f32zero] := by rfl

/-- Claim C9 (amended): evaluation fails with an internal error on a
null whole-row entry in the first operand, in a fixed-size-list second
operand, or in a variable-length-list second operand, and on a per-row
length mismatch with an error naming both lengths; the `Except` result
carries no partial rows.  A null element inside a vector is NOT
detected (see the counterexample). -/
theorem claimC9_null_and_length_errors (t : DataType) (rest : List (Option PrimArray))
    (arg1 : ArrayM) (t1 : DataType) (rows1 : List (Option PrimArray))
    (v1 : List Float32ArrayM)
    (hok : ArrayDistance.to_float32_array (.fixedSizeListArr t1 rows1) = .ok v1)
    (v2 v3 : List F32) (hne : v2.length ≠ v3.length) :
    ArrayDistance.invoke (.fixedSizeListArr t (none :: rest)) arg1
        = .error (.internal "no null entries allowed")
      ∧ ArrayDistance.invoke (.fixedSizeListArr t1 rows1) (.fixedSizeListArr t (none :: rest))
        = .error (.internal "no null entries allowed")
      ∧ ArrayDistance.invoke (.fixedSizeListArr t1 rows1) (.listArr t (none :: rest))
        = .error (.internal "no null entries allowed")
      ∧ ArrayDistance.invoke (f32RowArray v2) (f32RowArray v3)
        = .error (.internal ("arrays must have the same length "
            ++ toString v2.length ++ " != " ++ toString v3.length)) := by
  have hnull : ArrayDistance.to_float32_array (.fixedSizeListArr t (none :: rest))
      = .error (.internal "no null entries allowed") := by
    show ((none :: rest).mapM _) = _
    rw [List.mapM_cons]
    rfl
  have hnull2 : ArrayDistance.decodeSecondArg (.fixedSizeListArr t (none :: rest))
      = .error (.internal "no null entries allowed") := hnull
  have hnull3 : ArrayDistance.decodeSecondArg (.listArr t (none :: rest))
      = .error (.internal "no null entries allowed") := by
    show ((none :: rest).mapM _) = _
    rw [List.mapM_cons]
    rfl
  have ha : ArrayDistance.to_float32_array (f32RowArray v2)
      = .ok [(⟨v2, none⟩ : Float32ArrayM)] := to_float32_array_mk .float32 [v2]
  have hb : ArrayDistance.decodeSecondArg (f32RowArray v3)
      = .ok [(⟨v3, none⟩ : Float32ArrayM)] := to_float32_array_mk .float32 [v3]
  refine ⟨?_, ?_, ?_, ?_⟩
  · unfold ArrayDistance.invoke
    rw [hnull]
  · unfold ArrayDistance.invoke
    rw [hok, hnull2]
  · unfold ArrayDistance.invoke
    rw [hok, hnull3]
  · unfold ArrayDistance.invoke
    rw [f32RowArray] at ha hb
    unfold f32RowArray
    rw [ha, hb]
    show (([(⟨v2, none⟩ : Float32ArrayM)].zip [(⟨v3, none⟩ : Float32ArrayM)]).mapM _) = _
    rw [List.zip_cons_cons, List.mapM_cons]
    simp only [Float32ArrayM.len, hne, ne_eq, not_false_eq_true, if_true, if_pos]
    rfl

set_option maxRecDepth 100000 in
/-- Claim C9 (witness): the error conjuncts at concrete inputs,
including the `2 != 1` message on a concrete length mismatch. -/
theorem claimC9_null_and_length_errors_witness :
    ArrayDistance.to_float32_array (.fixedSizeListArr .float32 [some (.f32 ⟨[f32zero], none⟩)])
        = .ok [(⟨[f32zero], none⟩ : Float32ArrayM)]
      ∧ ([f32OfNat 1, f32OfNat 2] : List F32).length ≠ [f32OfNat 3].length
      ∧ ArrayDistance.invoke (.fixedSizeListArr .float32 [none]) nullElemArr
        = .error (.internal "no null entries allowed")
      ∧ ArrayDistance.invoke (.fixedSizeListArr .float32 [some (.f32 ⟨[f32zero], none⟩)])
          (.listArr .float32 [none])
        = .error (.internal "no null entries allowed")
      ∧ ArrayDistance.invoke (f32RowArray [f32OfNat 1, f32OfNat 2]) (f32RowArray [f32OfNat 3])
        = .error (.internal "arrays must have the same length 2 != 1") := by
  have h := claimC9_null_and_length_errors .float32 [] nullElemArr .float32
    [some (.f32 ⟨[f32zero], none⟩)] [⟨[f32zero], none⟩] rfl
    [f32OfNat 1, f32OfNat 2] [f32OfNat 3] (by decide)
  exact ⟨rfl, by decide, h.1, h.2.2.1, h.2.2.2⟩

/-- Claim C10: with every row decodable (no nulls) and paired rows of
equal vector length, a call whose two argument columns hold different
row counts succeeds — no error — and returns a dense output of exactly
`min` of the two row counts; surplus rows of the longer column are
silently dropped by the zip. -/
theorem claimC10_min_rows (rows1 rows2 : List (List F32))
    (h : ∀ p ∈ rows1.zip rows2, p.1.length = p.2.length) :
    ArrayDistance.invoke (f32RowsArray rows1) (f32RowsArray rows2)
        = .ok ((rows1.zip rows2).map fun p =>
            ArrayDistance.rowDistance ⟨p.1, none⟩ ⟨p.2, none⟩)
      ∧ ((rows1.zip rows2).map fun p =>
            ArrayDistance.rowDistance ⟨p.1, none⟩ ⟨p.2, none⟩).length
          = min rows1.length rows2.length :=
  ⟨invoke_f32Rows rows1 rows2 h, by simp⟩

set_option maxRecDepth 100000 in
/-- Claim C10 (witness): three rows against two rows yields exactly the
two distances of the common prefix. -/
theorem claimC10_min_rows_witness :
    (∀ p ∈ ([[f32OfNat 1], [f32OfNat 2], [f32OfNat 3]] : List (List F32)).zip
        ([[f32OfNat 4], [f32OfNat 5]] : List (List F32)), p.1.length = p.2.length)
      ∧ ArrayDistance.invoke (f32RowsArray [[f32OfNat 1], [f32OfNat 2], [f32OfNat 3]])
          (f32RowsArray [[f32OfNat 4], [f32OfNat 5]])
        = .ok [ArrayDistance.rowDistance ⟨[f32OfNat 1], none⟩ ⟨[f32OfNat 4], none⟩,
               ArrayDistance.rowDistance ⟨[f32OfNat 2], none⟩ ⟨[f32OfNat 5], none⟩]
      ∧ min ([[f32OfNat 1], [f32OfNat 2], [f32OfNat 3]] : List (List F32)).length
          ([[f32OfNat 4], [f32OfNat 5]] : List (List F32)).length = 2 := by
  have h := claimC10_min_rows [[f32OfNat 1], [f32OfNat 2], [f32OfNat 3]]
    [[f32OfNat 4], [f32OfNat 5]] (by decide)
  refine ⟨by decide, ?_, by decide⟩
  rw [h.1]
  rfl

end Spice
